import Mathlib

/-!
Shallow embedding of the GitGood repository simulator: the virtual git
repository state machine (`gitgood/core/repository.py`), the simulated
GitHub hosting service (`ghflow/core/github_api.py`), the lesson engine
(`ghflow/lessons/engine.py`) and the command lexer
(`gitgood/parser/lexer.py`), together with theorems checking the
specification's claims about them.
-/

set_option autoImplicit false

namespace GitGood

/-! ## Python dictionaries as insertion-ordered association lists -/

/-- A Python `dict` modelled as an insertion-ordered association list with
unique keys maintained by `set` (assignment) and `erase` (`del`). -/
abbrev PyDict (α β : Type) := List (α × β)

namespace PyDict

variable {α β : Type} [DecidableEq α]

/-- Lookup, as Python `d[k]` / `d.get(k)`. -/
def find? : PyDict α β → α → Option β
  | [], _ => none
  | (k, v) :: rest, k' => if k' = k then some v else find? rest k'

/-- Membership test, as Python `k in d`. -/
def contains (m : PyDict α β) (k : α) : Bool :=
  (find? m k).isSome

/-- Assignment `d[k] = v`: replaces the value at an existing key in place,
otherwise appends a new entry (Python dicts preserve insertion order). -/
def set : PyDict α β → α → β → PyDict α β
  | [], k, v => [(k, v)]
  | (k0, v0) :: rest, k, v =>
    if k0 = k then (k, v) :: rest else (k0, v0) :: set rest k v

/-- Deletion `del d[k]`: removes the (first) entry with the given key. -/
def erase : PyDict α β → α → PyDict α β
  | [], _ => []
  | (k0, v0) :: rest, k =>
    if k0 = k then rest else (k0, v0) :: erase rest k

/-- The list of keys, in insertion order. -/
def keys (m : PyDict α β) : List α := m.map Prod.fst

theorem find?_set (m : PyDict α β) (k k' : α) (v : β) :
    find? (set m k v) k' = if k' = k then some v else find? m k' := by
  induction m with
  | nil => simp [set, find?]
  | cons p rest ih =>
    obtain ⟨k0, v0⟩ := p
    by_cases h0 : k0 = k
    · subst h0
      by_cases h1 : k' = k0 <;> simp [set, find?, h1]
    · by_cases h1 : k' = k0
      · subst h1
        simp [set, find?, h0, Ne.symm h0]
      · simp [set, find?, h0, h1, ih]

theorem find?_erase_ne (m : PyDict α β) (k k' : α) (h : k' ≠ k) :
    find? (erase m k) k' = find? m k' := by
  induction m with
  | nil => simp [erase]
  | cons p rest ih =>
    obtain ⟨k0, v0⟩ := p
    by_cases h0 : k0 = k
    · subst h0
      simp [erase, find?, h]
    · by_cases h1 : k' = k0 <;> simp [erase, find?, h0, h1, ih]

theorem mem_set (m : PyDict α β) (k : α) (v : β) (p : α × β)
    (hp : p ∈ set m k v) : p = (k, v) ∨ p ∈ m := by
  induction m with
  | nil => simpa [set] using hp
  | cons q rest ih =>
    obtain ⟨k0, v0⟩ := q
    by_cases h0 : k0 = k
    · subst h0
      rcases (by simpa [set] using hp : p = (k0, v) ∨ p ∈ rest) with h | h
      · exact Or.inl h
      · exact Or.inr (List.mem_cons_of_mem _ h)
    · rcases (by simpa [set, h0] using hp : p = (k0, v0) ∨ p ∈ set rest k v) with h | h
      · exact Or.inr (by simp [h])
      · rcases ih h with h' | h'
        · exact Or.inl h'
        · exact Or.inr (List.mem_cons_of_mem _ h')

theorem mem_of_mem_erase (m : PyDict α β) (k : α) (p : α × β)
    (hp : p ∈ erase m k) : p ∈ m := by
  induction m with
  | nil => simpa [erase] using hp
  | cons q rest ih =>
    obtain ⟨k0, v0⟩ := q
    by_cases h0 : k0 = k
    · subst h0
      exact List.mem_cons_of_mem _ (by simpa [erase] using hp)
    · rcases (by simpa [erase, h0] using hp : p = (k0, v0) ∨ p ∈ erase rest k) with h | h
      · simp [h]
      · exact List.mem_cons_of_mem _ (ih h)

theorem keys_set_nodup (m : PyDict α β) (k : α) (v : β)
    (h : (keys m).Nodup) : (keys (set m k v)).Nodup := by
  induction m with
  | nil => simp [set, keys]
  | cons q rest ih =>
    obtain ⟨k0, v0⟩ := q
    simp only [keys, List.map_cons, List.nodup_cons] at h
    by_cases h0 : k0 = k
    · subst h0
      simpa [set, keys, List.nodup_cons] using h
    · have hrest := ih h.2
      simp only [set, h0, if_false, keys, List.map_cons, List.nodup_cons]
      refine ⟨?_, hrest⟩
      intro hmem
      have : k0 ∈ keys (set rest k v) := hmem
      -- a key of `set rest k v` is `k` or a key of `rest`
      have : k0 = k ∨ k0 ∈ keys rest := by
        rcases List.mem_map.mp hmem with ⟨p, hp, hk⟩
        rcases mem_set rest k v p hp with h' | h'
        · left; rw [← hk, h']
        · right; exact List.mem_map.mpr ⟨p, h', hk⟩
      rcases this with h' | h'
      · exact h0 h'
      · exact h.1 h'

theorem keys_erase_nodup (m : PyDict α β) (k : α)
    (h : (keys m).Nodup) : (keys (erase m k)).Nodup := by
  induction m with
  | nil => simp [erase, keys]
  | cons q rest ih =>
    obtain ⟨k0, v0⟩ := q
    simp only [keys, List.map_cons, List.nodup_cons] at h
    by_cases h0 : k0 = k
    · subst h0
      simpa [erase, keys] using h.2
    · have hrest := ih h.2
      simp only [erase, h0, if_false, keys, List.map_cons, List.nodup_cons]
      refine ⟨?_, hrest⟩
      intro hmem
      rcases List.mem_map.mp hmem with ⟨p, hp, hk⟩
      exact h.1 (List.mem_map.mpr ⟨p, mem_of_mem_erase rest k p hp, hk⟩)

theorem find?_some_mem (m : PyDict α β) (k : α) (v : β)
    (h : find? m k = some v) : (k, v) ∈ m := by
  induction m with
  | nil => simp [find?] at h
  | cons q rest ih =>
    obtain ⟨k0, v0⟩ := q
    by_cases h0 : k = k0
    · subst h0
      rw [find?, if_pos rfl] at h
      obtain rfl : v0 = v := Option.some.injEq _ _ ▸ h
      exact List.mem_cons_self _ _
    · rw [find?, if_neg h0] at h
      exact List.mem_cons_of_mem _ (ih h)

theorem set_eq_append (m : PyDict α β) (k : α) (v : β)
    (h : find? m k = none) : set m k v = m ++ [(k, v)] := by
  induction m with
  | nil => simp [set]
  | cons q rest ih =>
    obtain ⟨k0, v0⟩ := q
    by_cases h0 : k = k0
    · subst h0
      simp [find?] at h
    · simp only [find?, if_neg h0] at h
      simp [set, Ne.symm h0, ih h]

theorem contains_set_self (m : PyDict α β) (k : α) (v : β) :
    contains (set m k v) k = true := by
  simp [contains, find?_set]

theorem isSome_find?_set_of_isSome (m : PyDict α β) (k k' : α) (v : β)
    (h : (find? m k').isSome = true) : (find? (set m k v) k').isSome = true := by
  rw [find?_set]
  by_cases h0 : k' = k <;> simp [h0, h]

theorem nodup_keys_entry_inj (m : PyDict α β) (h : (keys m).Nodup)
    (p q : α × β) (hp : p ∈ m) (hq : q ∈ m) (hk : p.1 = q.1) : p = q := by
  induction m with
  | nil => simp at hp
  | cons r rest ih =>
    simp only [keys, List.map_cons, List.nodup_cons] at h
    rcases List.mem_cons.mp hp with hp' | hp' <;>
      rcases List.mem_cons.mp hq with hq' | hq'
    · rw [hp', hq']
    · exfalso
      apply h.1
      subst hp'
      exact List.mem_map.mpr ⟨q, hq', hk.symm⟩
    · exfalso
      apply h.1
      subst hq'
      exact List.mem_map.mpr ⟨p, hp', hk⟩
    · exact ih h.2 hp' hq'

end PyDict

/-! ## Python string helpers -/

/-- Whitespace characters recognised by Python `str.split()` / `str.strip()`. -/
def isPySpace (c : Char) : Bool :=
  c = ' ' || c = '\t' || c = '\n' || c = '\x0d' || c = '\x0b' || c = '\x0c'

/-- Python `str.split()` with no argument over a character list: split on runs
of whitespace, discarding empty pieces. -/
def splitWsChars : List Char → List Char → List String
  | [], acc => if acc = [] then [] else [String.mk acc.reverse]
  | c :: cs, acc =>
    if isPySpace c then
      if acc = [] then splitWsChars cs []
      else String.mk acc.reverse :: splitWsChars cs []
    else splitWsChars cs (c :: acc)

/-- Python `str.split()` with no argument. -/
def splitWs (s : String) : List String := splitWsChars s.data []

/-- Python `"sep".join(parts)`. -/
def joinWith (sep : String) : List String → String
  | [] => ""
  | [x] => x
  | x :: xs => x ++ sep ++ joinWith sep xs

/-- ASCII lower-casing of one character, as Python `str.lower` acts on the
ASCII strings used by the program. -/
def pyLowerChar (c : Char) : Char :=
  if 'A' ≤ c ∧ c ≤ 'Z' then Char.ofNat (c.toNat + 32) else c

/-- Python `str.lower()` (ASCII). -/
def pyLower (s : String) : String := String.mk (s.data.map pyLowerChar)

/-- Python `str.startswith(p)`. -/
def pyStartsWith (s p : String) : Bool := p.data.isPrefixOf s.data

/-- Python `str.strip()`: drop leading and trailing whitespace. -/
def pyStrip (s : String) : String :=
  String.mk (((s.data.dropWhile isPySpace).reverse.dropWhile isPySpace).reverse)

/-- Python negative-index-aware list indexing `l[i]`, `none` on `IndexError`. -/
def pyGet {α : Type} (l : List α) (i : Int) : Option α :=
  let j : Int := if i < 0 then (l.length : Int) + i else i
  if j < 0 then none else l.get? j.toNat

/-- Whether `needle` occurs as a contiguous substring of a character list. -/
def listHasSub (needle : List Char) : List Char → Bool
  | [] => needle.isEmpty
  | c :: rest => needle.isPrefixOf (c :: rest) || listHasSub needle rest

/-- Python `needle in hay` on strings. -/
def strHasSub (hay needle : String) : Bool := listHasSub needle.data hay.data

theorem listHasSub_append_right (needle l2 : List Char) (l1 : List Char)
    (h : listHasSub needle l2 = true) : listHasSub needle (l1 ++ l2) = true := by
  induction l1 with
  | nil => simpa using h
  | cons c cs ih => simp [listHasSub, ih]

theorem listHasSub_self_append (needle rest : List Char) :
    listHasSub needle (needle ++ rest) = true := by
  cases needle with
  | nil => cases rest <;> simp [listHasSub, List.isPrefixOf]
  | cons c cs =>
    simp only [List.cons_append, listHasSub, Bool.or_eq_true]
    left
    exact List.isPrefixOf_iff_prefix.mpr (by simp)

/-! ## Data model (`gitgood/core/models.py`, `ghflow/core/models.py`) -/

/-- A commit record. The `timestamp` field of the source is not modelled:
no claim observes it and it is wall-clock dependent. -/
structure Commit where
  sha : String
  message : String
  parent_sha : Option String := none
  author : String := "learner"
  files_changed : List String := []
  deriving DecidableEq, Repr

structure Branch where
  name : String
  commit_sha : String
  upstream : Option String := none
  is_remote : Bool := false
  deriving DecidableEq, Repr

structure StagedChange where
  filename : String
  change_type : String
  deriving DecidableEq, Repr

inductive PRStatus where
  | openPR
  | merged
  | closed
  deriving DecidableEq, Repr

/-- The `.value` string of the Python `PRStatus` enum. -/
def PRStatus.val : PRStatus → String
  | .openPR => "open"
  | .merged => "merged"
  | .closed => "closed"

/-- A review entry, a Python dict with keys reviewer / status / comment. -/
structure Review where
  reviewer : String
  status : String
  comment : String
  deriving DecidableEq, Repr

structure PullRequest where
  number : Nat
  title : String
  body : String
  source_branch : String
  target_branch : String := "main"
  status : PRStatus := .openPR
  reviews : List Review := []
  approved : Bool := false
  merge_conflicts : Bool := false
  deriving DecidableEq, Repr

structure RepositoryState where
  commits : PyDict String Commit := []
  branches : PyDict String Branch := []
  remote_branches : PyDict String Branch := []
  head : String := "main"
  detached_head : Bool := false
  staged_changes : List StagedChange := []
  working_changes : List String := []
  remote_url : Option String := none
  pull_requests : PyDict Nat PullRequest := []
  next_pr_number : Nat := 1
  deriving DecidableEq, Repr

structure CommandResult where
  success : Bool
  message : String := ""
  output : Option String := none
  hints : List String := []
  deriving DecidableEq, Repr

/-! ## Virtual repository (`gitgood/core/repository.py`) -/

/-- The alphabet `string.ascii_lowercase + string.digits` that
`VirtualRepository._generate_sha` draws from. -/
def shaAlphabet : List Char := "abcdefghijklmnopqrstuvwxyz0123456789".data

/-- `VirtualRepository._generate_sha`: seven independent draws from
`shaAlphabet`. The random stream of `random.choices` is modelled by the
function `f` giving the index drawn at each position. -/
def generate_sha (f : Nat → Nat) : String :=
  String.mk ((List.range 7).map (fun i => shaAlphabet.getD (f i % shaAlphabet.length) 'a'))

namespace VirtualRepository

/-- `VirtualRepository._initialize_repo`, with the initial commit id
(a `_generate_sha` draw) passed explicitly. -/
def initRepo (sha0 : String) : RepositoryState :=
  { commits := [(sha0, { sha := sha0, message := "Initial commit", parent_sha := none,
                         files_changed := ["README.md"] })]
    branches := [("main", { name := "main", commit_sha := sha0 })]
    head := "main"
    remote_url := some "https://github.com/learner/my-project.git" }

/-- `VirtualRepository.create_branch`. The Python `if start_point:` test is
truthiness: `None` and `""` both take the default-to-head path.
`none` is a `KeyError` (head missing from the branch map). -/
def create_branch (name : String) (start_point : Option String) (s : RepositoryState) :
    Option (CommandResult × RepositoryState) :=
  if PyDict.contains s.branches name then
    some ({ success := false,
            message := "fatal: a branch named '" ++ name ++ "' already exists" }, s)
  else
    let mk : String → Option (CommandResult × RepositoryState) := fun base_sha =>
      let newBranch : Branch := { name := name, commit_sha := base_sha }
      some ({ success := true, message := "" },
            { s with branches := PyDict.set s.branches name newBranch })
    let defaultPath : Option (CommandResult × RepositoryState) :=
      match PyDict.find? s.branches s.head with
      | none => none
      | some hb => mk hb.commit_sha
    match start_point with
    | none => defaultPath
    | some sp =>
      if sp = "" then defaultPath
      else
        match PyDict.find? s.branches sp with
        | some b => mk b.commit_sha
        | none =>
          if PyDict.contains s.commits sp then mk sp
          else some ({ success := false,
                       message := "fatal: not a valid object name: '" ++ sp ++ "'" }, s)

/-- `VirtualRepository.delete_branch`. -/
def delete_branch (name : String) (force : Bool) (s : RepositoryState) :
    CommandResult × RepositoryState :=
  if ¬ PyDict.contains s.branches name then
    ({ success := false, message := "error: branch '" ++ name ++ "' not found" }, s)
  else if name = s.head then
    ({ success := false,
       message := "error: cannot delete branch '" ++ name ++ "' used by worktree" }, s)
  else if name = "main" ∧ ¬ force then
    ({ success := false, message := "error: cannot delete the main branch" }, s)
  else
    ({ success := true, output := some ("Deleted branch " ++ name ++ ".") },
     { s with branches := PyDict.erase s.branches name })

/-- The tail of `VirtualRepository.checkout` after the optional create:
fail when the target is not a branch, otherwise move `head`. -/
def checkoutSwitch (target : String) (s : RepositoryState) :
    CommandResult × RepositoryState :=
  if ¬ PyDict.contains s.branches target then
    ({ success := false,
       message := "error: pathspec '" ++ target ++ "' did not match any branch",
       hints := ["Did you mean to create branch '" ++ target ++ "'? Use: git checkout -b " ++ target] }, s)
  else
    ({ success := true, output := some ("Switched to branch '" ++ target ++ "'") },
     { s with head := target })

/-- `VirtualRepository.checkout`. -/
def checkout (target : String) (create : Bool) (s : RepositoryState) :
    Option (CommandResult × RepositoryState) :=
  if create then
    if PyDict.contains s.branches target then
      some ({ success := false,
              message := "fatal: a branch named '" ++ target ++ "' already exists" }, s)
    else
      match create_branch target none s with
      | none => none
      | some (r, s1) =>
        if r.success = false then some (r, s1)
        else some (checkoutSwitch target s1)
  else some (checkoutSwitch target s)

/-- `VirtualRepository.add_file`. -/
def add_file (filename : String) (s : RepositoryState) :
    CommandResult × RepositoryState :=
  if filename = "." ∨ filename = "-A" ∨ filename = "--all" then
    ({ success := true, message := "" },
     { s with
        staged_changes := s.staged_changes ++
          s.working_changes.map (fun f => { filename := f, change_type := "modified" }),
        working_changes := [] })
  else
    let change_type := if s.working_changes.contains filename then "modified" else "added"
    let s1 := if s.working_changes.contains filename then
                { s with working_changes := s.working_changes.erase filename }
              else s
    if s1.staged_changes.any (fun c => c.filename = filename) then
      ({ success := true, message := "" }, s1)
    else
      ({ success := true, message := "" },
       { s1 with staged_changes := s1.staged_changes ++
          [{ filename := filename, change_type := change_type }] })

/-- `VirtualRepository.unstage_file`. -/
def unstage_file (filename : String) (s : RepositoryState) :
    CommandResult × RepositoryState :=
  if s.staged_changes.any (fun c => c.filename = filename) then
    ({ success := true, message := "" },
     { s with
        staged_changes := s.staged_changes.eraseP (fun c => c.filename = filename),
        working_changes := s.working_changes ++ [filename] })
  else
    ({ success := false,
       message := "error: pathspec '" ++ filename ++ "' is not staged" }, s)

/-- `VirtualRepository.commit`, with the `_generate_sha` draw passed
explicitly as `sha`. `none` is a `KeyError` (head missing from the
branch map). -/
def commit (message : String) (add_all : Bool) (sha : String) (s0 : RepositoryState) :
    Option (CommandResult × RepositoryState) :=
  let s := if add_all then (add_file "-A" s0).2 else s0
  if s.staged_changes = [] then
    some ({ success := false, message := "nothing to commit, working tree clean",
            hints := ["Use 'git add <file>' to stage changes"] }, s)
  else
    match PyDict.find? s.branches s.head with
    | none => none
    | some b =>
      let files := s.staged_changes.map (fun c => c.filename)
      let newCommit : Commit :=
        { sha := sha, message := message, parent_sha := some b.commit_sha,
          files_changed := files }
      let file_count := files.length
      let file_word := if file_count = 1 then "file" else "files"
      some ({ success := true,
              output := some ("[" ++ s.head ++ " " ++ sha ++ "] " ++ message ++
                "\n " ++ toString file_count ++ " " ++ file_word ++ " changed") },
            { s with
                commits := PyDict.set s.commits sha newCommit,
                branches := PyDict.set s.branches s.head ({ b with commit_sha := sha }),
                staged_changes := [] })

/-- The fixed leading lines of the `VirtualRepository.push` transcript. -/
def pushBaseLines (branch_name : String) (url : String) : List String :=
  [ "Enumerating objects: 5, done.",
    "Counting objects: 100% (5/5), done.",
    "Writing objects: 100% (3/3), 298 bytes | 298.00 KiB/s, done.",
    "Total 3 (delta 0), reused 0 (delta 0)",
    "remote: Create a pull request for '" ++ branch_name ++ "' on GitHub by visiting:",
    "remote:      https://github.com/learner/my-project/pull/new/" ++ branch_name,
    "To " ++ url ]

/-- The `" * [new branch]"` transcript line of `VirtualRepository.push`. -/
def pushNewBranchLine (branch_name : String) : String :=
  " * [new branch]      " ++ branch_name ++ " -> " ++ branch_name

/-- The fast-forward-style `sha..sha` transcript line of
`VirtualRepository.push`. -/
def pushUpdateLine (branch_name commit_sha : String) : String :=
  "   " ++ commit_sha.take 7 ++ ".." ++ commit_sha.take 7 ++ "  " ++
    branch_name ++ " -> " ++ branch_name

/-- The transcript of `VirtualRepository.push`, built after the
remote-tracking map has already been updated to `remote_branches_after`,
exactly as in the source (where the existence check is performed on the
already-updated map). -/
def pushOutputLines (branch_name commit_sha url remote_name : String)
    (remote_branches_after : PyDict String Branch) (set_upstream : Bool) : List String :=
  pushBaseLines branch_name url ++
  (if ¬ PyDict.contains remote_branches_after remote_name then
    [pushNewBranchLine branch_name]
   else
    [pushUpdateLine branch_name commit_sha]) ++
  (if set_upstream then
    ["branch '" ++ branch_name ++ "' set up to track '" ++ remote_name ++ "'"]
   else [])

/-- Python `f"{x}"` of the optional remote url (`None` prints as "None"). -/
def urlText : Option String → String
  | some u => u
  | none => "None"

/-- The Python `branch or self.state.head` default of `push` (truthiness:
`None` and `""` both fall back to the head branch). -/
def pushBranchName (branch : Option String) (s : RepositoryState) : String :=
  match branch with
  | some b => if b = "" then s.head else b
  | none => s.head

/-- `VirtualRepository.push`. -/
def push (remote : String) (branch : Option String) (set_upstream : Bool)
    (s : RepositoryState) : CommandResult × RepositoryState :=
  let branch_name := pushBranchName branch s
  match PyDict.find? s.branches branch_name with
  | none =>
    ({ success := false,
       message := "error: src refspec " ++ branch_name ++ " does not match any" }, s)
  | some local_branch =>
    let remote_name := remote ++ "/" ++ branch_name
    let remote_branches' := PyDict.set s.remote_branches remote_name
      ({ name := remote_name, commit_sha := local_branch.commit_sha, is_remote := true })
    let branches' :=
      if set_upstream then
        PyDict.set s.branches branch_name ({ local_branch with upstream := some remote_name })
      else s.branches
    let lines := pushOutputLines branch_name local_branch.commit_sha
      (urlText s.remote_url) remote_name remote_branches' set_upstream
    ({ success := true, output := some (joinWith "\n" lines) },
     { s with remote_branches := remote_branches', branches := branches' })

/-- `VirtualRepository.pull`: both paths report "Already up to date." and
leave the state untouched. -/
def pull (_remote : String) (_branch : Option String) (s : RepositoryState) :
    CommandResult × RepositoryState :=
  ({ success := true, output := some "Already up to date." }, s)

/-- `VirtualRepository.fetch`. -/
def fetch (_remote : String) (s : RepositoryState) :
    CommandResult × RepositoryState :=
  ({ success := true,
     output := some ("From " ++ urlText s.remote_url ++
       "\n * branch            main       -> FETCH_HEAD") }, s)

/-- `VirtualRepository.merge`, with the `_generate_sha` draw passed
explicitly as `sha`. The `no_ff` flag is ignored by the source
(`if no_ff or True:`). `none` is a `KeyError` (head missing from the
branch map, or a branch tip missing from the commit map). -/
def merge (branch : String) (_no_ff : Bool) (sha : String) (s : RepositoryState) :
    Option (CommandResult × RepositoryState) :=
  match PyDict.find? s.branches branch with
  | none =>
    some ({ success := false,
            message := "merge: " ++ branch ++ " - not something we can merge" }, s)
  | some source_branch =>
    match PyDict.find? s.branches s.head with
    | none => none
    | some target_branch =>
      match PyDict.find? s.commits source_branch.commit_sha with
      | none => none
      | some source_commit =>
        let merge_commit : Commit :=
          { sha := sha,
            message := "Merge branch '" ++ branch ++ "' into " ++ s.head,
            parent_sha := some target_branch.commit_sha,
            files_changed := source_commit.files_changed }
        some ({ success := true,
                output := some ("Merge made by the 'ort' strategy.\n " ++
                  toString source_commit.files_changed.length ++ " file(s) changed") },
              { s with
                  commits := PyDict.set s.commits sha merge_commit,
                  branches := PyDict.set s.branches s.head
                    ({ target_branch with commit_sha := sha }) })

/-- `VirtualRepository.add_working_change`. -/
def add_working_change (filename : String) (s : RepositoryState) : RepositoryState :=
  if s.working_changes.contains filename then s
  else { s with working_changes := s.working_changes ++ [filename] }

end VirtualRepository

/-! ## Simulated hosting service (`ghflow/core/github_api.py`) -/

namespace SimulatedGitHub

open VirtualRepository

/-- `SimulatedGitHub.create_pull_request`. The Python `source or head`
default is truthiness: `None` and `""` both fall back to the head branch. -/
def create_pull_request (title body : String) (source : Option String)
    (target : String) (s : RepositoryState) : CommandResult × RepositoryState :=
  let source_branch := match source with
    | some v => if v = "" then s.head else v
    | none => s.head
  if ¬ PyDict.contains s.branches source_branch then
    ({ success := false,
       message := "error: branch '" ++ source_branch ++ "' does not exist" }, s)
  else if source_branch = target then
    ({ success := false,
       message := "error: cannot create PR from a branch to itself" }, s)
  else if ¬ PyDict.contains s.remote_branches ("origin/" ++ source_branch) then
    ({ success := false,
       message := "error: branch '" ++ source_branch ++ "' has not been pushed to remote",
       hints := ["Push your branch first: git push -u origin " ++ source_branch] }, s)
  else
    let pr_number := s.next_pr_number
    let pr : PullRequest :=
      { number := pr_number, title := title, body := body,
        source_branch := source_branch, target_branch := target }
    ({ success := true,
       output := some ("Creating pull request for " ++ source_branch ++ " into " ++
         target ++ " in learner/my-project\n\nhttps://github.com/learner/my-project/pull/" ++
         toString pr_number) },
     { s with next_pr_number := pr_number + 1,
              pull_requests := PyDict.set s.pull_requests pr_number pr })

/-- The displayed verb of `SimulatedGitHub.merge_pull_request`. -/
def mergeMethodText (method : String) : String :=
  if method = "merge" then "Merged"
  else if method = "squash" then "Squashed and merged"
  else if method = "rebase" then "Rebased and merged"
  else "Merged"

/-- `SimulatedGitHub.merge_pull_request`, with the `_generate_sha` draw of
the repository merge passed explicitly as `sha`. The results of the
internal `checkout` and `merge` calls are discarded, as in the source. -/
def merge_pull_request (pr_number : Nat) (method : String) (sha : String)
    (s : RepositoryState) : Option (CommandResult × RepositoryState) :=
  match PyDict.find? s.pull_requests pr_number with
  | none =>
    some ({ success := false,
            message := "error: pull request #" ++ toString pr_number ++ " not found" }, s)
  | some pr =>
    if pr.status ≠ PRStatus.openPR then
      some ({ success := false,
              message := "error: pull request #" ++ toString pr_number ++
                " is already " ++ pr.status.val }, s)
    else
      match checkout pr.target_branch false s with
      | none => none
      | some (_, s1) =>
        match merge pr.source_branch false sha s1 with
        | none => none
        | some (_, s2) =>
          let mergedPR := { pr with status := PRStatus.merged }
          some ({ success := true,
                  output := some (mergeMethodText method ++ " pull request #" ++
                    toString pr_number ++ " (" ++ pr.title ++ ")") },
                { s2 with pull_requests := PyDict.set s2.pull_requests pr_number mergedPR })

/-- `SimulatedGitHub.close_pull_request`. -/
def close_pull_request (pr_number : Nat) (s : RepositoryState) :
    CommandResult × RepositoryState :=
  match PyDict.find? s.pull_requests pr_number with
  | none =>
    ({ success := false,
       message := "error: pull request #" ++ toString pr_number ++ " not found" }, s)
  | some pr =>
    if pr.status ≠ PRStatus.openPR then
      ({ success := false,
         message := "error: pull request #" ++ toString pr_number ++
           " is already " ++ pr.status.val }, s)
    else
      let closedPR := { pr with status := PRStatus.closed }
      ({ success := true,
         output := some ("Closed pull request #" ++ toString pr_number) },
       { s with pull_requests := PyDict.set s.pull_requests pr_number closedPR })

/-- `SimulatedGitHub.request_review`: always appends a pending entry per
reviewer, with no dedup. -/
def request_review (pr_number : Nat) (reviewers : List String) (s : RepositoryState) :
    CommandResult × RepositoryState :=
  match PyDict.find? s.pull_requests pr_number with
  | none =>
    ({ success := false,
       message := "error: pull request #" ++ toString pr_number ++ " not found" }, s)
  | some pr =>
    let newReviews : List Review :=
      reviewers.map (fun r => { reviewer := r, status := "pending", comment := "" })
    let pr' := { pr with reviews := pr.reviews ++ newReviews }
    ({ success := true,
       output := some ("Requested review from: " ++ joinWith ", " reviewers) },
     { s with pull_requests := PyDict.set s.pull_requests pr_number pr' })

/-- The update-first-matching-reviewer loop of `SimulatedGitHub.add_review`. -/
def updateFirstReview (reviewer status comment : String) : List Review → List Review
  | [] => []
  | rv :: rest =>
    if rv.reviewer = reviewer then
      { rv with status := status, comment := comment } :: rest
    else rv :: updateFirstReview reviewer status comment rest

/-- `SimulatedGitHub.add_review`. -/
def add_review (pr_number : Nat) (reviewer status comment : String)
    (s : RepositoryState) : CommandResult × RepositoryState :=
  match PyDict.find? s.pull_requests pr_number with
  | none =>
    ({ success := false,
       message := "error: pull request #" ++ toString pr_number ++ " not found" }, s)
  | some pr =>
    let reviews' :=
      if pr.reviews.any (fun rv => rv.reviewer = reviewer) then
        updateFirstReview reviewer status comment pr.reviews
      else pr.reviews ++ [{ reviewer := reviewer, status := status, comment := comment }]
    let approved' := if status = "approved" then true else pr.approved
    let status_text :=
      if status = "approved" then "approved these changes"
      else if status = "request_changes" then "requested changes"
      else if status = "comment" then "commented"
      else status
    let out := reviewer ++ " " ++ status_text ++
      (if comment ≠ "" then "\n\n" ++ comment else "")
    let pr' := { pr with reviews := reviews', approved := approved' }
    ({ success := true, output := some out },
     { s with pull_requests := PyDict.set s.pull_requests pr_number pr' })

end SimulatedGitHub

/-! ## Lesson engine (`ghflow/lessons/engine.py`) -/

inductive StepType where
  | explanation
  | command
  | free_practice
  deriving DecidableEq, Repr

structure LessonStep where
  step_id : String
  step_type : StepType
  instruction : String
  expected_commands : List String := []
  command_pattern : Option String := none
  success_message : String := "Correct!"
  failure_hints : List String := []
  setup_changes : List String := []
  deriving DecidableEq, Repr

structure ValidationResult where
  success : Bool
  message : String := ""
  hints : List String := []
  advance : Bool := false
  deriving DecidableEq, Repr

namespace LessonEngine

/-- `LessonEngine._normalize_command`: collapse whitespace, lower-case. -/
def normalize_command (cmd : String) : String :=
  pyLower (joinWith " " (splitWs cmd))

/-- Python `set(a) == set(b)` on the whitespace-split token lists. -/
def sameTokenSet (a b : List String) : Bool :=
  a.all (fun t => b.contains t) && b.all (fun t => a.contains t)

/-- Python `str.replace("'", '"')` (a single-character pattern, so a map). -/
def replaceQuotes (s : String) : String :=
  String.mk (s.data.map (fun c => if c = '\'' then '"' else c))

/-- `LessonEngine._commands_match`. -/
def commands_match (input_cmd expected_cmd : String) : Bool :=
  if input_cmd = expected_cmd then true
  else
    let input_cmd := replaceQuotes input_cmd
    let expected_cmd := replaceQuotes expected_cmd
    if input_cmd = expected_cmd then true
    else if pyStartsWith input_cmd "git " && pyStartsWith expected_cmd "git " then
      sameTokenSet (splitWs input_cmd) (splitWs expected_cmd)
    else false

/-- `LessonEngine._generate_feedback`, taking the already-incremented
attempt count. -/
def generate_feedback (user_input : String) (step : LessonStep)
    (attempt_count : Nat) : ValidationResult :=
  let hints :=
    (if user_input = "" then ["Please type a command."]
     else if ¬ pyStartsWith user_input "git" ∧ ¬ pyStartsWith user_input "gh" then
       ["Git commands start with 'git' or 'gh'."]
     else step.failure_hints.take 2) ++
    (if attempt_count ≥ 3 then ["Type 'hint' for more help."] else []) ++
    (if attempt_count ≥ 5 ∧ step.expected_commands ≠ [] then
       ["Try: " ++ step.expected_commands.headD ""] else [])
  { success := false, message := "That's not quite right.", hints := hints,
    advance := false }

/-- `LessonEngine.validate_command` against one step: returns the
validation result and the updated attempt count. The regular-expression
test `re.match(pattern, input, IGNORECASE)` on an optional pattern is
external (Python's `re` module) and is passed in as `rmatch`. -/
def validate_command (rmatch : String → String → Bool) (step : LessonStep)
    (attempt_count : Nat) (user_input : String) : ValidationResult × Nat :=
  let attempts := attempt_count + 1
  if step.step_type = StepType.explanation then
    ({ success := true, message := "", advance := true }, attempts)
  else if step.step_type = StepType.free_practice then
    ({ success := true, message := "", advance := false }, attempts)
  else
    let normalized_input := normalize_command user_input
    if step.expected_commands.any
        (fun expected => commands_match normalized_input (normalize_command expected)) then
      ({ success := true, message := step.success_message, advance := true }, attempts)
    else
      match step.command_pattern with
      | some pattern =>
        if rmatch pattern user_input then
          ({ success := true, message := step.success_message, advance := true }, attempts)
        else (generate_feedback user_input step attempts, attempts)
      | none => (generate_feedback user_input step attempts, attempts)

/-- `LessonEngine.get_hint` for the current step and attempt count.
Returns `none` on the (unreachable in the claims) Python `IndexError`
paths. -/
def get_hint (step? : Option LessonStep) (attempt_count : Nat) : Option String :=
  match step? with
  | none => some "No active lesson step."
  | some step =>
    if step.step_type = StepType.explanation then
      some "Press Enter to continue."
    else if step.failure_hints ≠ [] then
      pyGet step.failure_hints
        (min ((attempt_count : Int) - 1) ((step.failure_hints.length : Int) - 1))
    else
      match step.expected_commands with
      | cmd :: _ =>
        let words := splitWs cmd
        if words.length > 2 then
          match words with
          | w0 :: w1 :: _ => some ("The command starts with: " ++ w0 ++ " " ++ w1 ++ " ...")
          | _ => none
        else
          match words with
          | w0 :: _ => some ("The command starts with: " ++ w0 ++ " ...")
          | [] => none
      | [] => some "Keep trying!"

end LessonEngine

/-! ## Command lexer (`gitgood/parser/lexer.py`) -/

structure ParsedCommand where
  command_type : String
  command : String
  subcommand : Option String := none
  args : List String := []
  flags : PyDict String (Option String) := []
  raw_input : String := ""
  deriving DecidableEq, Repr

namespace CommandLexer

/-- The fixed set `INTERNAL_COMMANDS` of the lexer. -/
def internalCommands : List String :=
  ["help", "quit", "exit", "lesson", "lessons", "hint", "skip", "reset"]

/-- Tokenizer mode of the `shlex.split` state machine (POSIX mode). -/
inductive LexMode where
  | norm
  | squote
  | dquote
  | esc
  | escDq
  deriving DecidableEq, Repr

/-- The `shlex.split` state machine in POSIX mode, as used by the lexer:
whitespace-separated tokens with single/double quoting and backslash
escapes; unbalanced quoting or a trailing escape is a `ValueError`.
`hasTok` records that a token is in progress (so quoted empty strings
still produce a token). -/
def shlexRun (mode : LexMode) (cs : List Char) (acc : List Char) (hasTok : Bool)
    (out : List String) : Except String (List String) :=
  match mode, cs with
  | .norm, [] => .ok (out ++ if hasTok then [String.mk acc.reverse] else [])
  | .norm, c :: rest =>
    if isPySpace c then
      if hasTok then shlexRun .norm rest [] false (out ++ [String.mk acc.reverse])
      else shlexRun .norm rest [] false out
    else if c = '\'' then shlexRun .squote rest acc true out
    else if c = '"' then shlexRun .dquote rest acc true out
    else if c = '\\' then shlexRun .esc rest acc hasTok out
    else shlexRun .norm rest (c :: acc) true out
  | .squote, [] => .error "No closing quotation"
  | .squote, c :: rest =>
    if c = '\'' then shlexRun .norm rest acc true out
    else shlexRun .squote rest (c :: acc) true out
  | .dquote, [] => .error "No closing quotation"
  | .dquote, c :: rest =>
    if c = '"' then shlexRun .norm rest acc true out
    else if c = '\\' then shlexRun .escDq rest acc true out
    else shlexRun .dquote rest (c :: acc) true out
  | .esc, [] => .error "No escaped character"
  | .esc, c :: rest => shlexRun .norm rest (c :: acc) true out
  | .escDq, [] => .error "No escaped character"
  | .escDq, c :: rest =>
    if c = '"' ∨ c = '\\' then shlexRun .dquote rest (c :: acc) true out
    else shlexRun .dquote rest (c :: '\\' :: acc) true out

/-- `shlex.split` on a string. -/
def shlexSplit (s : String) : Except String (List String) :=
  shlexRun .norm s.data [] false []

/-- Python `token.split("=", 1)`: the pieces before and after the first
`'='` (the token is known to contain one). -/
def splitAtEq (t : String) : String × String :=
  (String.mk (t.data.takeWhile (fun c => c ≠ '=')),
   String.mk ((t.data.dropWhile (fun c => c ≠ '=')).drop 1))

/-- The flag/argument loop of `CommandLexer._parse_git_or_gh`, with its
one-token lookahead for flag values. The singleton pattern is the loop
body when no next token exists for the lookahead. -/
def parseFlags : List String → PyDict String (Option String) → List String →
    PyDict String (Option String) × List String
  | [], flags, args => (flags, args)
  | t :: rest@([]), flags, args =>
    if pyStartsWith t "--" then
      if t.data.contains '=' then
        let (key, value) := splitAtEq t
        parseFlags rest (PyDict.set flags key (some value)) args
      else parseFlags rest (PyDict.set flags t none) args
    else if pyStartsWith t "-" && t.length > 1 then
      parseFlags rest (PyDict.set flags t none) args
    else parseFlags rest flags (args ++ [t])
  | t :: rest@(r1 :: rest'), flags, args =>
    if pyStartsWith t "--" then
      if t.data.contains '=' then
        let (key, value) := splitAtEq t
        parseFlags rest (PyDict.set flags key (some value)) args
      else
        if ¬ pyStartsWith r1 "-" then
          parseFlags rest' (PyDict.set flags t (some r1)) args
        else parseFlags rest (PyDict.set flags t none) args
    else if pyStartsWith t "-" && t.length > 1 then
      if ¬ pyStartsWith r1 "-" then
        parseFlags rest' (PyDict.set flags t (some r1)) args
      else parseFlags rest (PyDict.set flags t none) args
    else parseFlags rest flags (args ++ [t])

/-- `CommandLexer._parse_git_or_gh`. -/
def parseGitOrGh (tokens : List String) (cmd_type : String) (raw_input : String) :
    ParsedCommand :=
  let command := (tokens.drop 1).headD ""
  let remaining := tokens.drop 2
  let (subcommand, remaining) :=
    if cmd_type = "gh" ∧ command = "pr" ∧ remaining ≠ [] then
      (some (remaining.headD ""), remaining.drop 1)
    else (none, remaining)
  let (flags, args) := parseFlags remaining [] []
  { command_type := cmd_type, command := command, subcommand := subcommand,
    args := args, flags := flags, raw_input := raw_input }

/-- `CommandLexer.parse`. A `ParseError` is an `Except.error` carrying the
error text. -/
def parse (user_input : String) : Except String ParsedCommand :=
  let user_input := pyStrip user_input
  if user_input = "" then .error "Empty command"
  else
    match shlexSplit user_input with
    | .error e => .error ("Invalid command syntax: " ++ e)
    | .ok [] => .error "Empty command"
    | .ok (t0 :: rest) =>
      let cmd_type := pyLower t0
      if internalCommands.contains cmd_type then
        .ok { command_type := "internal", command := cmd_type, args := rest,
              raw_input := user_input }
      else if cmd_type ≠ "git" ∧ cmd_type ≠ "gh" then
        .error ("Unknown command: '" ++ cmd_type ++
          "'. Commands should start with 'git' or 'gh'.")
      else if rest = [] then
        .error ("'" ++ cmd_type ++ "' requires a subcommand")
      else .ok (parseGitOrGh (t0 :: rest) cmd_type user_input)

end CommandLexer

/-! ## Theorems about the claims -/

open VirtualRepository SimulatedGitHub LessonEngine CommandLexer

/-- The failure result of `VirtualRepository.commit` when nothing is staged. -/
def commitNothingToCommit : CommandResult :=
  { success := false, message := "nothing to commit, working tree clean",
    hints := ["Use 'git add <file>' to stage changes"] }

/-- C1: committing with no staged changes (`add_all` false and an empty
staged list, or `add_all` true and both the staged and working lists
empty) fails with "nothing to commit", creates no commit, moves no branch
pointer, and returns the repository state entirely unchanged. -/
theorem commit_nothing_staged_fails (m sha : String) (s : RepositoryState)
    (h : s.staged_changes = []) :
    commit m false sha s = some (commitNothingToCommit, s) ∧
    (s.working_changes = [] → commit m true sha s = some (commitNothingToCommit, s)) := by
  constructor
  · simp [commit, h, commitNothingToCommit]
  · intro hw
    have hs : (add_file "-A" s).2 = s := by
      cases s
      simp_all [add_file]
    simp [commit, hs, h, commitNothingToCommit]

theorem commit_nothing_staged_fails_witness :
    commit "m" false "zzzzzzz" (initRepo "abc1234") =
      some (commitNothingToCommit, initRepo "abc1234") ∧
    ((initRepo "abc1234").working_changes = [] →
      commit "m" true "zzzzzzz" (initRepo "abc1234") =
        some (commitNothingToCommit, initRepo "abc1234")) :=
  commit_nothing_staged_fails "m" "zzzzzzz" (initRepo "abc1234") rfl

/-- C9 (counterexample): `add_file` on an already-staged filename is not
always a frame-preserving no-op. First conjunct: with `"a.txt"` both
staged and in the working list (pre working list `["a.txt"]`), the call
removes it from the working list. Second conjunct: with the staged
filename `"."`, the bulk-stage branch runs instead and grows the staged
list. -/
theorem add_file_staged_not_noop_counterexample :
    (add_file "a.txt"
      { initRepo "abc1234" with
          staged_changes := [{ filename := "a.txt", change_type := "modified" }],
          working_changes := ["a.txt"] }).2.working_changes = [] ∧
    (add_file "."
      { initRepo "abc1234" with
          staged_changes := [{ filename := ".", change_type := "added" }],
          working_changes := ["w.txt"] }).2.staged_changes =
      [{ filename := ".", change_type := "added" },
       { filename := "w.txt", change_type := "modified" }] := by
  decide

/-- C9 (amended): for a filename other than the bulk tokens `"."`, `"-A"`,
`"--all"` that is already staged, `add_file` returns success and leaves
the state unchanged except that the filename, if also present in the
working-tree list, is removed from it (the staged list is unchanged). -/
theorem add_file_already_staged (f : String) (s : RepositoryState)
    (h1 : f ≠ ".") (h2 : f ≠ "-A") (h3 : f ≠ "--all")
    (h : s.staged_changes.any (fun c => c.filename = f) = true) :
    add_file f s =
      ({ success := true, message := "" },
       { s with working_changes := s.working_changes.erase f }) := by
  have hany : ∃ x ∈ s.staged_changes, x.filename = f := by simpa using h
  by_cases hmem : f ∈ s.working_changes
  · simp [add_file, h1, h2, h3, hmem, hany]
  · have he : s.working_changes.erase f = s.working_changes :=
      List.erase_of_not_mem hmem
    simp [add_file, h1, h2, h3, hmem, hany, he]

theorem add_file_already_staged_witness :
    add_file "a.txt"
      { initRepo "abc1234" with
          staged_changes := [{ filename := "a.txt", change_type := "modified" }],
          working_changes := ["a.txt", "b.txt"] } =
      ({ success := true, message := "" },
       { ({ initRepo "abc1234" with
            staged_changes := [{ filename := "a.txt", change_type := "modified" }],
            working_changes := ["a.txt", "b.txt"] } : RepositoryState) with
          working_changes := ["a.txt", "b.txt"].erase "a.txt" }) :=
  add_file_already_staged "a.txt" _ (by decide) (by decide) (by decide) (by decide)

/-- C2 (counterexample): `add_file "-A"` followed by `commit` does not
always create exactly one commit with the pre-add working list as its
changed files. First conjunct: from a state with empty staged and working
lists the commit fails and the commit map keeps its single initial entry.
Second conjunct: with `"b.txt"` staged beforehand and an empty working
list, the new commit's changed-files list is `["b.txt"]`, not the (empty)
pre-add working list. -/
theorem add_all_commit_counterexample :
    ((commit "m" false "zzzzzzz" (add_file "-A" (initRepo "abc1234")).2).map
      (fun p => (p.1.success, p.2.commits.length)) = some (false, 1)) ∧
    ((commit "m" false "zzzzzzz"
        (add_file "-A"
          { initRepo "abc1234" with
              staged_changes := [{ filename := "b.txt", change_type := "added" }] }).2).bind
      (fun p => (PyDict.find? p.2.commits "zzzzzzz").map
        (fun c => c.files_changed)) = some ["b.txt"]) := by
  decide

/-- C2 (amended): provided the staged and working lists are not both
empty, `add_file "-A"` followed by `commit m` empties both lists, appends
exactly one new commit (whose changed-files list is the staged filenames
followed by the pre-add working-tree filenames, and whose parent is the
head branch's previous tip), and advances the head branch pointer to it. -/
theorem add_all_then_commit (m sha : String) (s : RepositoryState) (b : Branch)
    (hb : PyDict.find? s.branches s.head = some b)
    (hsha : PyDict.find? s.commits sha = none)
    (hne : ¬ (s.staged_changes = [] ∧ s.working_changes = [])) :
    commit m false sha (add_file "-A" s).2 =
      some ({ success := true,
              output := some ("[" ++ s.head ++ " " ++ sha ++ "] " ++ m ++ "\n " ++
                toString (s.staged_changes.length + s.working_changes.length) ++ " " ++
                (if s.staged_changes.length + s.working_changes.length = 1
                 then "file" else "files") ++ " changed") },
            { s with
                commits := s.commits ++ [(sha,
                  { sha := sha, message := m, parent_sha := some b.commit_sha,
                    files_changed := s.staged_changes.map (fun c => c.filename) ++
                      s.working_changes })],
                branches := PyDict.set s.branches s.head ({ b with commit_sha := sha }),
                staged_changes := [],
                working_changes := [] }) := by
  have hstep : (add_file "-A" s).2 =
      { s with
          staged_changes := s.staged_changes ++
            s.working_changes.map (fun f => { filename := f, change_type := "modified" }),
          working_changes := [] } := by
    simp [add_file]
  rw [hstep]
  have hne' : s.staged_changes ++
      s.working_changes.map
        (fun f => ({ filename := f, change_type := "modified" } : StagedChange)) ≠ [] := by
    intro hcontra
    rcases List.append_eq_nil.mp hcontra with ⟨h1, h2⟩
    exact hne ⟨h1, List.map_eq_nil_iff.mp h2⟩
  simp [commit, hne', hne, hb, PyDict.set_eq_append _ _ _ hsha,
    List.map_append, List.map_map, Function.comp]
  exact List.map_id s.working_changes

/-- A starting state with one pending working-tree change, used to witness
the amended C2. -/
def c2WitnessState : RepositoryState :=
  { initRepo "abc1234" with working_changes := ["a.txt"] }

theorem add_all_then_commit_witness :
    commit "m" false "zzzzzzz" (add_file "-A" c2WitnessState).2 =
      some ({ success := true,
              output := some "[main zzzzzzz] m\n 1 file changed" },
            { c2WitnessState with
                commits := c2WitnessState.commits ++ [("zzzzzzz",
                  { sha := "zzzzzzz", message := "m", parent_sha := some "abc1234",
                    files_changed := ["a.txt"] })],
                branches := PyDict.set c2WitnessState.branches "main"
                  ({ name := "main", commit_sha := "zzzzzzz" }),
                staged_changes := [],
                working_changes := [] }) :=
  add_all_then_commit "m" "zzzzzzz" c2WitnessState
    ({ name := "main", commit_sha := "abc1234" }) (by decide) (by decide) (by decide)

/-- C3 (the bug, evaluated): the push transcript always carries the
fast-forward-style `sha..sha` update line and never the `* [new branch]`
line — even when, as hypothesised here, the remote-tracking entry did not
exist before the push — because the source inserts the entry into
`remote_branches` first and then tests `remote_name not in
self.state.remote_branches` on the already-updated map (a dead branch). -/
theorem push_first_push_still_update_line (remote : String) (branch : Option String)
    (su : Bool) (s : RepositoryState) (local_branch : Branch)
    (hbn : PyDict.find? s.branches (pushBranchName branch s) = some local_branch)
    (hprev : PyDict.find? s.remote_branches
      (remote ++ "/" ++ pushBranchName branch s) = none) :
    (push remote branch su s).1.output = some (joinWith "\n"
      (pushBaseLines (pushBranchName branch s) (urlText s.remote_url) ++
       [pushUpdateLine (pushBranchName branch s) local_branch.commit_sha] ++
       (if su then ["branch '" ++ pushBranchName branch s ++ "' set up to track '" ++
          (remote ++ "/" ++ pushBranchName branch s) ++ "'"] else []))) := by
  simp [push, pushOutputLines, hbn, PyDict.contains_set_self]

theorem push_first_push_still_update_line_witness :
    (push "origin" (some "feature") false
      { initRepo "abc1234" with
          branches := [("main", { name := "main", commit_sha := "abc1234" }),
                       ("feature", { name := "feature", commit_sha := "abc1234" })] }).1.output =
      some (joinWith "\n"
        (pushBaseLines "feature" "https://github.com/learner/my-project.git" ++
         [pushUpdateLine "feature" "abc1234"] ++ [])) :=
  push_first_push_still_update_line "origin" (some "feature") false
    _ ({ name := "feature", commit_sha := "abc1234" }) (by decide) (by decide)

/-- A command step expecting `git commit -m 'Fix bug'` (single-quoted),
the scenario of the spec's lesson-validation property. -/
def c6Step : LessonStep :=
  { step_id := "commit-step", step_type := StepType.command,
    instruction := "Commit your change",
    expected_commands := ["git commit -m 'Fix bug'"] }

/-- The same step with the `--message` spelling additionally listed as an
accepted command. -/
def c6StepWithAlias : LessonStep :=
  { c6Step with
      expected_commands := ["git commit -m 'Fix bug'",
                            "git commit --message \"Fix bug\""] }

/-- C6: for a step accepting `git commit -m 'Fix bug'`, validation accepts
the double-quoted `git commit -m "Fix bug"` (quote-style insensitive) and
rejects `git commit --message "Fix bug"` (flag aliases are not
equivalenced); the `--message` form is accepted once that literal string
is itself in the accepted list; and token order inside a git-prefixed
command does not matter (`git -m commit "Fix bug"` is accepted). Both the
attempt counter and the external regex matcher are arbitrary (the steps
carry no pattern). -/
theorem lesson_quote_alias_order_matching
    (rmatch : String → String → Bool) (n : Nat) :
    (validate_command rmatch c6Step n "git commit -m \"Fix bug\"").1.success = true ∧
    (validate_command rmatch c6Step n "git commit --message \"Fix bug\"").1.success = false ∧
    (validate_command rmatch c6StepWithAlias n
      "git commit --message \"Fix bug\"").1.success = true ∧
    (validate_command rmatch c6Step n "git -m commit \"Fix bug\"").1.success = true := by
  refine ⟨rfl, rfl, rfl, rfl⟩

/-- C10: with a non-empty hint list on a command step, `get_hint` at
attempt count 0 returns the last hint (the Python index `min(-1, len-1)`
is `-1`, which indexes from the end), and at attempt count `n ≥ 1`
returns the hint at index `min (n-1) (len-1)`. -/
theorem get_hint_attempt_escalation (step : LessonStep) (n : Nat)
    (hcmd : step.step_type = StepType.command)
    (hh : step.failure_hints ≠ []) :
    (n = 0 → get_hint (some step) n = some (step.failure_hints.getLast hh)) ∧
    (1 ≤ n → get_hint (some step) n =
      step.failure_hints.get? (min (n - 1) (step.failure_hints.length - 1))) := by
  have hlen : 1 ≤ step.failure_hints.length := List.length_pos.mpr hh
  have hbranch : get_hint (some step) n =
      pyGet step.failure_hints
        (min ((n : Int) - 1) ((step.failure_hints.length : Int) - 1)) := by
    simp [get_hint, hcmd, hh]
  constructor
  · rintro rfl
    rw [hbranch]
    have hmin : min (((0 : Nat) : Int) - 1)
        ((step.failure_hints.length : Int) - 1) = -1 := by omega
    rw [hmin]
    have htn : ((step.failure_hints.length : Int) + -1).toNat =
        step.failure_hints.length - 1 := by omega
    simp only [pyGet]
    norm_num
    refine ⟨hh, ?_⟩
    rw [htn, List.getElem?_eq_getElem (show step.failure_hints.length - 1 <
      step.failure_hints.length by omega)]
    simp [List.getLast_eq_getElem]
  · intro h1n
    rw [hbranch]
    have e1 : min ((n : Int) - 1) ((step.failure_hints.length : Int) - 1) =
        ((min (n - 1) (step.failure_hints.length - 1) : Nat) : Int) := by omega
    have h0 : ¬ ((min (n - 1) (step.failure_hints.length - 1) : Nat) : Int) < 0 := by
      omega
    have htn : (((min (n - 1) (step.failure_hints.length - 1) : Nat)) : Int).toNat =
        min (n - 1) (step.failure_hints.length - 1) := by omega
    rw [e1]
    simp only [pyGet]
    rw [if_neg h0, if_neg h0, htn]

/-- A command step with two hints, used to witness the hint escalation. -/
def c10Step : LessonStep :=
  { step_id := "s", step_type := StepType.command, instruction := "do it",
    failure_hints := ["h1", "h2"] }

theorem get_hint_attempt_escalation_witness :
    get_hint (some c10Step) 0 = some (c10Step.failure_hints.getLast (by decide)) ∧
    get_hint (some c10Step) 3 =
      c10Step.failure_hints.get? (min (3 - 1) (c10Step.failure_hints.length - 1)) :=
  ⟨(get_hint_attempt_escalation c10Step 0 rfl (by decide)).1 rfl,
   (get_hint_attempt_escalation c10Step 3 rfl (by decide)).2 (by norm_num)⟩

/-- C8 (counterexample): the lexer does not treat `status` and `tree` as
internal keywords — its `INTERNAL_COMMANDS` set contains only
help/quit/exit/lesson/lessons/hint/skip/reset — so both raise
`ParseError` ("Unknown command") instead of parsing as internal
commands. (The application layer special-cases the exact inputs
"status" and "tree" before the lexer ever sees them.) -/
theorem lexer_status_tree_counterexample :
    parse "status" = Except.error
      "Unknown command: 'status'. Commands should start with 'git' or 'gh'." ∧
    parse "tree" = Except.error
      "Unknown command: 'tree'. Commands should start with 'git' or 'gh'." := by
  constructor <;> rfl

/-- C8 (amended): for every input whose first token (after `shlex`
splitting of the stripped input), lower-cased, is in the lexer's
`INTERNAL_COMMANDS` set — help, quit, exit, lesson, lessons, hint, skip,
reset, without status or tree — `parse` returns a `ParsedCommand` of type
"internal" with all remaining tokens as positional args. -/
theorem lexer_internal_keyword (input t0 : String) (rest : List String)
    (hsplit : shlexSplit (pyStrip input) = Except.ok (t0 :: rest))
    (hkw : internalCommands.contains (pyLower t0) = true) :
    parse input = Except.ok
      { command_type := "internal", command := pyLower t0,
        args := rest, raw_input := pyStrip input } := by
  have hne : pyStrip input ≠ "" := by
    intro h
    rw [h] at hsplit
    have hempty : shlexSplit "" = Except.ok ([] : List String) := rfl
    rw [hempty] at hsplit
    simp at hsplit
  have hkw' : pyLower t0 ∈ internalCommands := by simpa using hkw
  simp [parse, hne, hsplit, hkw']

theorem lexer_internal_keyword_witness :
    parse "HINT foo bar" = Except.ok
      { command_type := "internal", command := "hint",
        args := ["foo", "bar"], raw_input := "HINT foo bar" } :=
  lexer_internal_keyword "HINT foo bar" "HINT" ["foo", "bar"] rfl (by decide)

/-- The PR state used to refute the unconditional reading of the PR-merge
claim: pull request 1 is open but its source branch "feature" does not
exist in the branch map. -/
def c5State : RepositoryState :=
  { initRepo "abc1234" with
      pull_requests := [(1, { number := 1, title := "T", body := "",
                              source_branch := "feature" })] }

/-- C5 (counterexample): merging an open PR whose source branch has been
deleted still reports success and marks the PR merged, but creates no
merge commit (the commit map keeps its single entry): the repository
`merge` failure inside `merge_pull_request` is silently discarded. -/
theorem merge_pr_counterexample :
    (merge_pull_request 1 "merge" "zzzzzzz" c5State).map
      (fun p => (p.1.success, p.2.commits.length,
        (PyDict.find? p.2.pull_requests 1).map (fun pr => pr.status))) =
      some (true, 1, some PRStatus.merged) := by
  decide

/-- C5 (amended): merging an open pull request whose source and target
branches exist (and whose source tip is a known commit) succeeds,
transitions the PR from open to merged, and appends exactly one merge
commit; calling `merge_pull_request` on the same number again — with any
method and any fresh sha — fails with a message containing
"already merged" and returns the state completely unchanged. -/
theorem merge_pr_then_already_merged (n : Nat) (method method2 sha sha2 : String)
    (s : RepositoryState) (pr : PullRequest) (tb sb : Branch) (sc : Commit)
    (hpr : PyDict.find? s.pull_requests n = some pr)
    (hopen : pr.status = PRStatus.openPR)
    (htgt : PyDict.find? s.branches pr.target_branch = some tb)
    (hsrc : PyDict.find? s.branches pr.source_branch = some sb)
    (hsc : PyDict.find? s.commits sb.commit_sha = some sc)
    (hsha : PyDict.find? s.commits sha = none) :
    ∃ s' : RepositoryState,
      merge_pull_request n method sha s =
        some ({ success := true,
                output := some (mergeMethodText method ++ " pull request #" ++
                  toString n ++ " (" ++ pr.title ++ ")") }, s') ∧
      PyDict.find? s'.pull_requests n = some ({ pr with status := PRStatus.merged }) ∧
      s'.commits = s.commits ++ [(sha,
        { sha := sha,
          message := "Merge branch '" ++ pr.source_branch ++ "' into " ++ pr.target_branch,
          parent_sha := some tb.commit_sha,
          files_changed := sc.files_changed })] ∧
      merge_pull_request n method2 sha2 s' =
        some ({ success := false,
                message := "error: pull request #" ++ toString n ++
                  " is already merged" }, s') ∧
      strHasSub ("error: pull request #" ++ toString n ++ " is already merged")
        "already merged" = true := by
  have htgtmem : PyDict.contains s.branches pr.target_branch = true := by
    simp [PyDict.contains, htgt]
  refine ⟨{ s with
      head := pr.target_branch,
      commits := PyDict.set s.commits sha
        ({ sha := sha,
           message := "Merge branch '" ++ pr.source_branch ++ "' into " ++ pr.target_branch,
           parent_sha := some tb.commit_sha,
           files_changed := sc.files_changed }),
      branches := PyDict.set s.branches pr.target_branch ({ tb with commit_sha := sha }),
      pull_requests := PyDict.set s.pull_requests n ({ pr with status := PRStatus.merged }) },
    ?_, ?_, ?_, ?_, ?_⟩
  · simp [merge_pull_request, hpr, hopen, checkout, checkoutSwitch, htgtmem,
      merge, hsrc, hsc, htgt]
  · simp [PyDict.find?_set]
  · simp [PyDict.set_eq_append _ _ _ hsha]
  · have hlit : (" is already " : String) ++ "merged" = " is already merged" := rfl
    simp [merge_pull_request, PyDict.find?_set, hopen, PRStatus.val,
      String.append_assoc, hlit]
  · unfold strHasSub
    rw [String.data_append]
    exact listHasSub_append_right _ _ _ (by decide)

/-- A state with a pushed feature branch and one open PR from it, used to
witness the amended PR-merge claim. -/
def c5WitnessState : RepositoryState :=
  { commits := [("abc1234", { sha := "abc1234", message := "Initial commit",
                              files_changed := ["README.md"] }),
                ("def5678", { sha := "def5678", message := "feat",
                              parent_sha := some "abc1234",
                              files_changed := ["f.txt"] })],
    branches := [("main", { name := "main", commit_sha := "abc1234" }),
                 ("feature", { name := "feature", commit_sha := "def5678" })],
    head := "main",
    remote_url := some "https://github.com/learner/my-project.git",
    pull_requests := [(1, { number := 1, title := "T", body := "",
                            source_branch := "feature" })],
    next_pr_number := 2 }

theorem merge_pr_then_already_merged_witness :
    ∃ s' : RepositoryState,
      merge_pull_request 1 "merge" "zzzzzzz" c5WitnessState =
        some ({ success := true, output := some "Merged pull request #1 (T)" }, s') ∧
      PyDict.find? s'.pull_requests 1 =
        some { number := 1, title := "T", body := "", source_branch := "feature",
               status := PRStatus.merged } ∧
      s'.commits = c5WitnessState.commits ++ [("zzzzzzz",
        { sha := "zzzzzzz", message := "Merge branch 'feature' into main",
          parent_sha := some "abc1234", files_changed := ["f.txt"] })] ∧
      merge_pull_request 1 "squash" "yyyyyyy" s' =
        some ({ success := false,
                message := "error: pull request #1 is already merged" }, s') ∧
      strHasSub "error: pull request #1 is already merged" "already merged" = true :=
  merge_pr_then_already_merged 1 "merge" "squash" "zzzzzzz" "yyyyyyy" c5WitnessState
    ({ number := 1, title := "T", body := "", source_branch := "feature" })
    ({ name := "main", commit_sha := "abc1234" })
    ({ name := "feature", commit_sha := "def5678" })
    ({ sha := "def5678", message := "feat", parent_sha := some "abc1234",
       files_changed := ["f.txt"] })
    (by decide) rfl (by decide) (by decide) (by decide) (by decide)

/-! ## Repository invariants (for the head-branch and commit-id claims) -/

theorem PyDict.contains_iff_exists {α β : Type} [DecidableEq α]
    (m : PyDict α β) (k : α) :
    PyDict.contains m k = true ↔ ∃ v, PyDict.find? m k = some v := by
  simp [PyDict.contains, Option.isSome_iff_exists]

theorem PyDict.contains_set_mono {α β : Type} [DecidableEq α]
    (m : PyDict α β) (k k' : α) (v : β)
    (h : PyDict.contains m k' = true) :
    PyDict.contains (PyDict.set m k v) k' = true :=
  PyDict.isSome_find?_set_of_isSome m k k' v h

/-- A commit id as `_generate_sha` produces them: seven characters from
the lowercase-alphanumeric alphabet. -/
def ShaOk (sha : String) : Prop :=
  sha.length = 7 ∧ ∀ c ∈ sha.data, c ∈ shaAlphabet

theorem shaAlphabet_getD_mem (n : Nat) :
    shaAlphabet.getD (n % shaAlphabet.length) 'a' ∈ shaAlphabet := by
  have hlen : 0 < shaAlphabet.length := by decide
  have hlt : n % shaAlphabet.length < shaAlphabet.length := Nat.mod_lt _ hlen
  rw [List.getD_eq_getElem _ _ hlt]
  exact List.getElem_mem hlt

theorem generate_sha_ok (f : Nat → Nat) : ShaOk (generate_sha f) := by
  constructor
  · simp [generate_sha, String.length]
  · intro c hc
    simp only [generate_sha] at hc
    rcases List.mem_map.mp hc with ⟨i, _, rfl⟩
    exact shaAlphabet_getD_mem (f i)

/-- The state invariant behind the head-branch and commit-id claims:
the head names a branch, every branch tip is a known commit, the commit
map's keys are distinct, and every commit is stored under its own id,
which is a 7-character lowercase-alphanumeric string. -/
def Inv (s : RepositoryState) : Prop :=
  PyDict.contains s.branches s.head = true ∧
  (∀ p ∈ s.branches, PyDict.contains s.commits p.2.commit_sha = true) ∧
  (PyDict.keys s.commits).Nodup ∧
  (∀ p ∈ s.commits, p.2.sha = p.1 ∧ ShaOk p.1)

theorem inv_frame {s s' : RepositoryState} (h : Inv s)
    (hc : s'.commits = s.commits) (hb : s'.branches = s.branches)
    (hh : s'.head = s.head) : Inv s' := by
  unfold Inv at h ⊢
  rw [hc, hb, hh]
  exact h

theorem inv_init (f : Nat → Nat) : Inv (initRepo (generate_sha f)) := by
  refine ⟨rfl, ?_, by simp [initRepo, PyDict.keys], ?_⟩
  · intro p hp
    simp only [initRepo, List.mem_singleton] at hp
    subst hp
    simp [PyDict.contains, PyDict.find?]
  · intro p hp
    simp only [initRepo, List.mem_singleton] at hp
    subst hp
    exact ⟨rfl, generate_sha_ok f⟩

/-- The invariant passes through a branch-map update whose new tip is a
known commit. -/
theorem inv_set_branch {s : RepositoryState} (h : Inv s) (name : String) (b : Branch)
    (htip : PyDict.contains s.commits b.commit_sha = true) :
    Inv { s with branches := PyDict.set s.branches name b } := by
  obtain ⟨h1, h2, h3, h4⟩ := h
  by_cases hhead : s.head = name
  · refine ⟨?_, ?_, h3, h4⟩
    · simpa [hhead] using PyDict.contains_set_self s.branches name b
    · intro p hp
      rcases PyDict.mem_set _ _ _ _ hp with rfl | hp'
      · exact htip
      · exact h2 p hp'
  · refine ⟨?_, ?_, h3, h4⟩
    · unfold PyDict.contains at h1 ⊢
      rw [PyDict.find?_set, if_neg hhead]
      exact h1
    · intro p hp
      rcases PyDict.mem_set _ _ _ _ hp with rfl | hp'
      · exact htip
      · exact h2 p hp'

/-- The state produced by a successful `create_branch`. -/
def createBranchState (name base_sha : String) (s : RepositoryState) : RepositoryState :=
  let newBranch : Branch := { name := name, commit_sha := base_sha }
  { s with branches := PyDict.set s.branches name newBranch }

theorem create_branch_inv (name : String) (sp : Option String) (s : RepositoryState)
    (h : Inv s) :
    ∃ r s', create_branch name sp s = some (r, s') ∧ Inv s' := by
  by_cases hn : PyDict.contains s.branches name = true
  · have heq : create_branch name sp s =
        some ({ success := false,
                message := "fatal: a branch named '" ++ name ++ "' already exists" }, s) := by
      simp [create_branch, hn]
    exact ⟨_, s, heq, h⟩
  · obtain ⟨hb, hhb⟩ := (PyDict.contains_iff_exists _ _).mp h.1
    have hheadtip : PyDict.contains s.commits hb.commit_sha = true :=
      h.2.1 (s.head, hb) (PyDict.find?_some_mem _ _ _ hhb)
    match sp with
    | none =>
      have heq : create_branch name none s =
          some ({ success := true, message := "" },
                createBranchState name hb.commit_sha s) := by
        simp [create_branch, hn, hhb, createBranchState]
      exact ⟨_, _, heq, inv_set_branch h name _ hheadtip⟩
    | some spv =>
      by_cases hsp0 : spv = ""
      · have heq : create_branch name (some spv) s =
            some ({ success := true, message := "" },
                  createBranchState name hb.commit_sha s) := by
          simp [create_branch, hn, hhb, hsp0, createBranchState]
        exact ⟨_, _, heq, inv_set_branch h name _ hheadtip⟩
      · match hfb : PyDict.find? s.branches spv with
        | some b =>
          have heq : create_branch name (some spv) s =
              some ({ success := true, message := "" },
                    createBranchState name b.commit_sha s) := by
            simp [create_branch, hn, hsp0, hfb, createBranchState]
          exact ⟨_, _, heq, inv_set_branch h name _
            (h.2.1 (spv, b) (PyDict.find?_some_mem _ _ _ hfb))⟩
        | none =>
          by_cases hcsp : PyDict.contains s.commits spv = true
          · have heq : create_branch name (some spv) s =
                some ({ success := true, message := "" },
                      createBranchState name spv s) := by
              simp [create_branch, hn, hsp0, hfb, hcsp, createBranchState]
            exact ⟨_, _, heq, inv_set_branch h name _ hcsp⟩
          · have heq : create_branch name (some spv) s =
                some ({ success := false,
                        message := "fatal: not a valid object name: '" ++ spv ++ "'" }, s) := by
              simp [create_branch, hn, hsp0, hfb, hcsp]
            exact ⟨_, s, heq, h⟩

theorem delete_branch_inv (name : String) (force : Bool) (s : RepositoryState)
    (h : Inv s) : Inv (delete_branch name force s).2 := by
  unfold delete_branch
  by_cases hn : PyDict.contains s.branches name = true
  · by_cases hhead : name = s.head
    · rw [if_neg (by simp [hn]), if_pos hhead]
      exact h
    · by_cases hmain : name = "main" ∧ ¬ (force = true)
      · rw [if_neg (by simp [hn]), if_neg hhead, if_pos hmain]
        exact h
      · rw [if_neg (by simp [hn]), if_neg hhead, if_neg hmain]
        obtain ⟨h1, h2, h3, h4⟩ := h
        refine ⟨?_, ?_, h3, h4⟩
        · unfold PyDict.contains at h1 ⊢
          rw [PyDict.find?_erase_ne _ _ _ (Ne.symm hhead)]
          exact h1
        · intro p hp
          exact h2 p (PyDict.mem_of_mem_erase _ _ _ hp)
  · rw [if_pos (by simp [hn])]
    exact h

theorem checkoutSwitch_inv (target : String) (s : RepositoryState) (h : Inv s) :
    Inv (checkoutSwitch target s).2 := by
  unfold checkoutSwitch
  by_cases ht : PyDict.contains s.branches target = true
  · obtain ⟨h1, h2, h3, h4⟩ := h
    simp only [ht, not_true_eq_false, if_false]
    exact ⟨ht, h2, h3, h4⟩
  · simp [ht, h]

theorem checkout_inv (target : String) (create : Bool) (s : RepositoryState)
    (h : Inv s) :
    ∃ r s', checkout target create s = some (r, s') ∧ Inv s' := by
  cases create with
  | false =>
    refine ⟨(checkoutSwitch target s).1, (checkoutSwitch target s).2, ?_,
      checkoutSwitch_inv target s h⟩
    simp [checkout]
  | true =>
    by_cases ht : PyDict.contains s.branches target = true
    · have heq : checkout target true s =
          some ({ success := false,
                  message := "fatal: a branch named '" ++ target ++
                    "' already exists" }, s) := by
        simp [checkout, ht]
      exact ⟨_, s, heq, h⟩
    · obtain ⟨hb, hhb⟩ := (PyDict.contains_iff_exists _ _).mp h.1
      have hcb : create_branch target none s =
          some ({ success := true, message := "" },
                createBranchState target hb.commit_sha s) := by
        simp [create_branch, ht, hhb, createBranchState]
      have hinv1 : Inv (createBranchState target hb.commit_sha s) :=
        inv_set_branch h target _
          (h.2.1 (s.head, hb) (PyDict.find?_some_mem _ _ _ hhb))
      refine ⟨(checkoutSwitch target (createBranchState target hb.commit_sha s)).1,
        (checkoutSwitch target (createBranchState target hb.commit_sha s)).2, ?_,
        checkoutSwitch_inv target _ hinv1⟩
      simp [checkout, ht, hcb]

/-- The invariant passes through recording a fresh commit under its own
well-formed id and retargeting the head branch at it. -/
theorem inv_new_commit {s s' : RepositoryState} (h : Inv s) (sha : String)
    (hsha : ShaOk sha) (c : Commit) (hcsha : c.sha = sha) (b : Branch)
    (hbsha : b.commit_sha = sha)
    (hc : s'.commits = PyDict.set s.commits sha c)
    (hb : s'.branches = PyDict.set s.branches s'.head b)
    (hh : s'.head = s.head) : Inv s' := by
  obtain ⟨h1, h2, h3, h4⟩ := h
  refine ⟨?_, ?_, ?_, ?_⟩
  · rw [hb]
    exact PyDict.contains_set_self _ _ _
  · intro p hp
    rw [hb] at hp
    rw [hc]
    rcases PyDict.mem_set _ _ _ _ hp with rfl | hp'
    · simpa [hbsha] using PyDict.contains_set_self s.commits sha c
    · exact PyDict.contains_set_mono _ _ _ _ (h2 p hp')
  · rw [hc]
    exact PyDict.keys_set_nodup _ _ _ h3
  · intro p hp
    rw [hc] at hp
    rcases PyDict.mem_set _ _ _ _ hp with rfl | hp'
    · exact ⟨hcsha, hsha⟩
    · exact h4 p hp'

theorem commit_inv (m : String) (add_all : Bool) (sha : String) (s0 : RepositoryState)
    (h : Inv s0) (hsha : ShaOk sha) :
    ∃ r s', commit m add_all sha s0 = some (r, s') ∧ Inv s' := by
  have hinv1 : Inv (if add_all then (add_file "-A" s0).2 else s0) := by
    cases add_all
    · simpa using h
    · refine inv_frame h ?_ ?_ ?_ <;> simp [add_file]
  set s1 := if add_all then (add_file "-A" s0).2 else s0 with hs1
  by_cases hst : s1.staged_changes = []
  · have heq : commit m add_all sha s0 = some (commitNothingToCommit, s1) := by
      simp only [commit, ← hs1, if_pos hst, commitNothingToCommit]
    exact ⟨_, s1, heq, hinv1⟩
  · obtain ⟨b, hbfind⟩ := (PyDict.contains_iff_exists _ _).mp hinv1.1
    have heq : commit m add_all sha s0 =
        some ({ success := true,
                output := some ("[" ++ s1.head ++ " " ++ sha ++ "] " ++ m ++
                  "\n " ++ toString (s1.staged_changes.map
                    (fun c => c.filename)).length ++ " " ++
                  (if (s1.staged_changes.map (fun c => c.filename)).length = 1
                   then "file" else "files") ++ " changed") },
              { s1 with
                  commits := PyDict.set s1.commits sha
                    ({ sha := sha, message := m, parent_sha := some b.commit_sha,
                       files_changed := s1.staged_changes.map (fun c => c.filename) }),
                  branches := PyDict.set s1.branches s1.head
                    ({ b with commit_sha := sha }),
                  staged_changes := [] }) := by
      simp only [commit, ← hs1, if_neg hst, hbfind]
    refine ⟨_, _, heq, ?_⟩
    exact inv_new_commit hinv1 sha hsha _ rfl _ rfl rfl rfl rfl

theorem merge_inv (branch : String) (nf : Bool) (sha : String) (s : RepositoryState)
    (h : Inv s) (hsha : ShaOk sha) :
    ∃ r s', merge branch nf sha s = some (r, s') ∧ Inv s' := by
  match hfb : PyDict.find? s.branches branch with
  | none =>
    have heq : merge branch nf sha s =
        some ({ success := false,
                message := "merge: " ++ branch ++ " - not something we can merge" }, s) := by
      simp only [merge, hfb]
    exact ⟨_, s, heq, h⟩
  | some sb =>
    obtain ⟨tb, htb⟩ := (PyDict.contains_iff_exists _ _).mp h.1
    obtain ⟨sc, hsc⟩ := (PyDict.contains_iff_exists _ _).mp
      (h.2.1 (branch, sb) (PyDict.find?_some_mem _ _ _ hfb))
    have heq : merge branch nf sha s =
        some ({ success := true,
                output := some ("Merge made by the 'ort' strategy.\n " ++
                  toString sc.files_changed.length ++ " file(s) changed") },
              { s with
                  commits := PyDict.set s.commits sha
                    ({ sha := sha,
                       message := "Merge branch '" ++ branch ++ "' into " ++ s.head,
                       parent_sha := some tb.commit_sha,
                       files_changed := sc.files_changed }),
                  branches := PyDict.set s.branches s.head
                    ({ tb with commit_sha := sha }) }) := by
      simp only [merge, hfb, htb, hsc]
    refine ⟨_, _, heq, ?_⟩
    exact inv_new_commit h sha hsha _ rfl _ rfl rfl rfl rfl

theorem push_inv (remote : String) (branch : Option String) (su : Bool)
    (s : RepositoryState) (h : Inv s) : Inv (push remote branch su s).2 := by
  unfold push
  match hfb : PyDict.find? s.branches (pushBranchName branch s) with
  | none =>
    simp only [hfb]
    exact h
  | some lb =>
    simp only [hfb]
    cases su with
    | false =>
      refine inv_frame h ?_ ?_ ?_ <;> simp
    | true =>
      obtain ⟨h1, h2, h3, h4⟩ := h
      refine ⟨?_, ?_, h3, h4⟩
      · exact PyDict.contains_set_mono _ _ _ _ h1
      · intro p hp
        rcases PyDict.mem_set _ _ _ _ hp with rfl | hp'
        · exact h2 (pushBranchName branch s, lb) (PyDict.find?_some_mem _ _ _ hfb)
        · exact h2 p hp'

theorem merge_pull_request_inv (n : Nat) (method sha : String) (s : RepositoryState)
    (h : Inv s) (hsha : ShaOk sha) :
    ∃ r s', merge_pull_request n method sha s = some (r, s') ∧ Inv s' := by
  match hpr : PyDict.find? s.pull_requests n with
  | none =>
    have heq : merge_pull_request n method sha s =
        some ({ success := false,
                message := "error: pull request #" ++ toString n ++ " not found" }, s) := by
      simp only [merge_pull_request, hpr]
    exact ⟨_, s, heq, h⟩
  | some pr =>
    by_cases hopen : pr.status = PRStatus.openPR
    · obtain ⟨r1, s1, heq1, hinv1⟩ := checkout_inv pr.target_branch false s h
      obtain ⟨r2, s2, heq2, hinv2⟩ := merge_inv pr.source_branch false sha s1 hinv1 hsha
      have heq : merge_pull_request n method sha s =
          some ({ success := true,
                  output := some (mergeMethodText method ++ " pull request #" ++
                    toString n ++ " (" ++ pr.title ++ ")") },
                { s2 with pull_requests := PyDict.set s2.pull_requests n ({ pr with status := PRStatus.merged }) }) := by
        simp only [merge_pull_request, hpr, heq1, heq2]
        rw [if_neg (by simp [hopen])]
      refine ⟨_, _, heq, ?_⟩
      exact inv_frame hinv2 rfl rfl rfl
    · have heq : merge_pull_request n method sha s =
          some ({ success := false,
                  message := "error: pull request #" ++ toString n ++
                    " is already " ++ pr.status.val }, s) := by
        simp only [merge_pull_request, hpr]
        rw [if_pos (by simp [hopen])]
      exact ⟨_, s, heq, h⟩

/-! ## Operation sequences -/

/-- The four operations of the head-branch claim. The commit operation
carries the random stream consumed by `_generate_sha`. -/
inductive Op4 where
  | createB (name : String) (start_point : Option String)
  | deleteB (name : String) (force : Bool)
  | checkoutOp (target : String) (create : Bool)
  | commitOp (message : String) (add_all : Bool) (f : Nat → Nat)

/-- One step of the head-branch claim's operations (results discarded,
`none` on a Python `KeyError`). -/
def step4 : Op4 → RepositoryState → Option RepositoryState
  | .createB name sp, s => (create_branch name sp s).map Prod.snd
  | .deleteB name force, s => some (delete_branch name force s).2
  | .checkoutOp target create, s => (checkout target create s).map Prod.snd
  | .commitOp m a f, s => (commit m a (generate_sha f) s).map Prod.snd

def run4 : List Op4 → RepositoryState → Option RepositoryState
  | [], s => some s
  | op :: ops, s =>
    match step4 op s with
    | none => none
    | some s' => run4 ops s'

theorem step4_inv (op : Op4) (s : RepositoryState) (h : Inv s) :
    ∃ s', step4 op s = some s' ∧ Inv s' := by
  cases op with
  | createB name sp =>
    obtain ⟨r, s', heq, hinv⟩ := create_branch_inv name sp s h
    exact ⟨s', by simp [step4, heq], hinv⟩
  | deleteB name force =>
    exact ⟨(delete_branch name force s).2, rfl, delete_branch_inv name force s h⟩
  | checkoutOp target create =>
    obtain ⟨r, s', heq, hinv⟩ := checkout_inv target create s h
    exact ⟨s', by simp [step4, heq], hinv⟩
  | commitOp m a f =>
    obtain ⟨r, s', heq, hinv⟩ := commit_inv m a (generate_sha f) s h (generate_sha_ok f)
    exact ⟨s', by simp [step4, heq], hinv⟩

theorem run4_inv (ops : List Op4) (s : RepositoryState) (h : Inv s) :
    ∃ s', run4 ops s = some s' ∧ Inv s' := by
  induction ops generalizing s with
  | nil => exact ⟨s, rfl, h⟩
  | cons op ops ih =>
    obtain ⟨s1, hs1, hinv1⟩ := step4_inv op s h
    obtain ⟨s', hrun, hinv'⟩ := ih s1 hinv1
    exact ⟨s', by simp only [run4, hs1]; exact hrun, hinv'⟩

/-- All state-changing public operations of the repository and hosting
simulation. Operations that draw a commit id carry the random stream
consumed by `_generate_sha`. -/
inductive OpX where
  | createB (name : String) (start_point : Option String)
  | deleteB (name : String) (force : Bool)
  | checkoutOp (target : String) (create : Bool)
  | addFileOp (filename : String)
  | unstageOp (filename : String)
  | commitOp (message : String) (add_all : Bool) (f : Nat → Nat)
  | mergeOp (branch : String) (no_ff : Bool) (f : Nat → Nat)
  | pushOp (remote : String) (branch : Option String) (set_upstream : Bool)
  | pullOp (remote : String) (branch : Option String)
  | fetchOp (remote : String)
  | addWorkingOp (filename : String)
  | createPROp (title body : String) (source : Option String) (target : String)
  | mergePROp (n : Nat) (method : String) (f : Nat → Nat)
  | closePROp (n : Nat)
  | requestReviewOp (n : Nat) (reviewers : List String)
  | addReviewOp (n : Nat) (reviewer status comment : String)

/-- One step of an arbitrary operation (results discarded, `none` on a
Python `KeyError`). -/
def stepX : OpX → RepositoryState → Option RepositoryState
  | .createB name sp, s => (create_branch name sp s).map Prod.snd
  | .deleteB name force, s => some (delete_branch name force s).2
  | .checkoutOp target create, s => (checkout target create s).map Prod.snd
  | .addFileOp fn, s => some (add_file fn s).2
  | .unstageOp fn, s => some (unstage_file fn s).2
  | .commitOp m a f, s => (commit m a (generate_sha f) s).map Prod.snd
  | .mergeOp b nf f, s => (merge b nf (generate_sha f) s).map Prod.snd
  | .pushOp r b su, s => some (push r b su s).2
  | .pullOp r b, s => some (pull r b s).2
  | .fetchOp r, s => some (fetch r s).2
  | .addWorkingOp fn, s => some (add_working_change fn s)
  | .createPROp t b src tgt, s => some (create_pull_request t b src tgt s).2
  | .mergePROp n m f, s => (merge_pull_request n m (generate_sha f) s).map Prod.snd
  | .closePROp n, s => some (close_pull_request n s).2
  | .requestReviewOp n rs, s => some (request_review n rs s).2
  | .addReviewOp n r st c, s => some (add_review n r st c s).2

def runX : List OpX → RepositoryState → Option RepositoryState
  | [], s => some s
  | op :: ops, s =>
    match stepX op s with
    | none => none
    | some s' => runX ops s'

theorem add_file_frame (fn : String) (s : RepositoryState) :
    (add_file fn s).2.commits = s.commits ∧ (add_file fn s).2.branches = s.branches ∧
    (add_file fn s).2.head = s.head := by
  unfold add_file
  try dsimp only
  repeat' split
  all_goals exact ⟨rfl, rfl, rfl⟩

theorem unstage_file_frame (fn : String) (s : RepositoryState) :
    (unstage_file fn s).2.commits = s.commits ∧
    (unstage_file fn s).2.branches = s.branches ∧
    (unstage_file fn s).2.head = s.head := by
  unfold unstage_file
  try dsimp only
  repeat' split
  all_goals exact ⟨rfl, rfl, rfl⟩

theorem add_working_change_frame (fn : String) (s : RepositoryState) :
    (add_working_change fn s).commits = s.commits ∧
    (add_working_change fn s).branches = s.branches ∧
    (add_working_change fn s).head = s.head := by
  unfold add_working_change
  try dsimp only
  repeat' split
  all_goals exact ⟨rfl, rfl, rfl⟩

theorem create_pull_request_frame (t b : String) (src : Option String) (tgt : String)
    (s : RepositoryState) :
    (create_pull_request t b src tgt s).2.commits = s.commits ∧
    (create_pull_request t b src tgt s).2.branches = s.branches ∧
    (create_pull_request t b src tgt s).2.head = s.head := by
  unfold create_pull_request
  try dsimp only
  repeat' split
  all_goals exact ⟨rfl, rfl, rfl⟩

theorem close_pull_request_frame (n : Nat) (s : RepositoryState) :
    (close_pull_request n s).2.commits = s.commits ∧
    (close_pull_request n s).2.branches = s.branches ∧
    (close_pull_request n s).2.head = s.head := by
  unfold close_pull_request
  try dsimp only
  repeat' split
  all_goals exact ⟨rfl, rfl, rfl⟩

theorem request_review_frame (n : Nat) (rs : List String) (s : RepositoryState) :
    (request_review n rs s).2.commits = s.commits ∧
    (request_review n rs s).2.branches = s.branches ∧
    (request_review n rs s).2.head = s.head := by
  unfold request_review
  try dsimp only
  repeat' split
  all_goals exact ⟨rfl, rfl, rfl⟩

theorem add_review_frame (n : Nat) (r st c : String) (s : RepositoryState) :
    (add_review n r st c s).2.commits = s.commits ∧
    (add_review n r st c s).2.branches = s.branches ∧
    (add_review n r st c s).2.head = s.head := by
  unfold add_review
  try dsimp only
  repeat' split
  all_goals exact ⟨rfl, rfl, rfl⟩

theorem stepX_inv (op : OpX) (s : RepositoryState) (h : Inv s) :
    ∃ s', stepX op s = some s' ∧ Inv s' := by
  cases op with
  | createB name sp =>
    obtain ⟨r, s', heq, hinv⟩ := create_branch_inv name sp s h
    exact ⟨s', by simp [stepX, heq], hinv⟩
  | deleteB name force =>
    exact ⟨_, rfl, delete_branch_inv name force s h⟩
  | checkoutOp target create =>
    obtain ⟨r, s', heq, hinv⟩ := checkout_inv target create s h
    exact ⟨s', by simp [stepX, heq], hinv⟩
  | addFileOp fn =>
    obtain ⟨hc, hb, hh⟩ := add_file_frame fn s
    exact ⟨_, rfl, inv_frame h hc hb hh⟩
  | unstageOp fn =>
    obtain ⟨hc, hb, hh⟩ := unstage_file_frame fn s
    exact ⟨_, rfl, inv_frame h hc hb hh⟩
  | commitOp m a f =>
    obtain ⟨r, s', heq, hinv⟩ := commit_inv m a (generate_sha f) s h (generate_sha_ok f)
    exact ⟨s', by simp [stepX, heq], hinv⟩
  | mergeOp b nf f =>
    obtain ⟨r, s', heq, hinv⟩ := merge_inv b nf (generate_sha f) s h (generate_sha_ok f)
    exact ⟨s', by simp [stepX, heq], hinv⟩
  | pushOp r b su =>
    exact ⟨_, rfl, push_inv r b su s h⟩
  | pullOp r b =>
    exact ⟨_, rfl, h⟩
  | fetchOp r =>
    exact ⟨_, rfl, h⟩
  | addWorkingOp fn =>
    obtain ⟨hc, hb, hh⟩ := add_working_change_frame fn s
    exact ⟨_, rfl, inv_frame h hc hb hh⟩
  | createPROp t b src tgt =>
    obtain ⟨hc, hb, hh⟩ := create_pull_request_frame t b src tgt s
    exact ⟨_, rfl, inv_frame h hc hb hh⟩
  | mergePROp n m f =>
    obtain ⟨r, s', heq, hinv⟩ :=
      merge_pull_request_inv n m (generate_sha f) s h (generate_sha_ok f)
    exact ⟨s', by simp [stepX, heq], hinv⟩
  | closePROp n =>
    obtain ⟨hc, hb, hh⟩ := close_pull_request_frame n s
    exact ⟨_, rfl, inv_frame h hc hb hh⟩
  | requestReviewOp n rs =>
    obtain ⟨hc, hb, hh⟩ := request_review_frame n rs s
    exact ⟨_, rfl, inv_frame h hc hb hh⟩
  | addReviewOp n r st c =>
    obtain ⟨hc, hb, hh⟩ := add_review_frame n r st c s
    exact ⟨_, rfl, inv_frame h hc hb hh⟩

theorem runX_inv (ops : List OpX) (s : RepositoryState) (h : Inv s) :
    ∃ s', runX ops s = some s' ∧ Inv s' := by
  induction ops generalizing s with
  | nil => exact ⟨s, rfl, h⟩
  | cons op ops ih =>
    obtain ⟨s1, hs1, hinv1⟩ := stepX_inv op s h
    obtain ⟨s', hrun, hinv'⟩ := ih s1 hinv1
    exact ⟨s', by simp only [runX, hs1]; exact hrun, hinv'⟩

/-- C4: starting from the initialized repository, after any sequence of
branch creates, branch deletes, checkouts and commits (none of which can
raise), the head always names a branch present in the branch map. -/
theorem head_names_existing_branch (f0 : Nat → Nat) (ops : List Op4) :
    ∃ s', run4 ops (initRepo (generate_sha f0)) = some s' ∧
      PyDict.contains s'.branches s'.head = true := by
  obtain ⟨s', hrun, hinv⟩ := run4_inv ops _ (inv_init f0)
  exact ⟨s', hrun, hinv.1⟩

theorem shaAlphabet_char_range :
    ∀ c ∈ shaAlphabet, ('a' ≤ c ∧ c ≤ 'z') ∨ ('0' ≤ c ∧ c ≤ '9') := by
  decide

/-- C7: after any sequence of operations from the initialized repository,
every commit id in the commit map is exactly 7 characters, each a
lowercase letter or digit, and no two distinct commits share an id. -/
theorem commit_ids_wellformed_and_distinct (f0 : Nat → Nat) (ops : List OpX) :
    ∃ s', runX ops (initRepo (generate_sha f0)) = some s' ∧
      (∀ p ∈ s'.commits, p.2.sha.length = 7 ∧
        ∀ c ∈ p.2.sha.data, ('a' ≤ c ∧ c ≤ 'z') ∨ ('0' ≤ c ∧ c ≤ '9')) ∧
      (∀ p q, p ∈ s'.commits → q ∈ s'.commits → p ≠ q → p.2.sha ≠ q.2.sha) := by
  obtain ⟨s', hrun, hinv⟩ := runX_inv ops _ (inv_init f0)
  have h4 := hinv.2.2.2
  refine ⟨s', hrun, ?_, ?_⟩
  · intro p hp
    obtain ⟨hkey, hlen, hmem⟩ := h4 p hp
    refine ⟨by rw [hkey]; exact hlen, ?_⟩
    intro c hc
    rw [hkey] at hc
    exact shaAlphabet_char_range c (hmem c hc)
  · intro p q hp hq hne heq
    apply hne
    have hk : p.1 = q.1 := by
      rw [← (h4 p hp).1, ← (h4 q hq).1, heq]
    exact PyDict.nodup_keys_entry_inj _ hinv.2.2.1 p q hp hq hk

end GitGood
